import Mathlib

/-!
# gaia: start-up of the pipeline server (`cmd/gaia/main.go`)

A shallow embedding of `cmd/gaia/main.go`.  The program is a single `main`
that parses three command-line flags into the global `gaia.Cfg`, resolves the
home folder, creates three folders below it, and then wires the store, the
scheduler, the HTTP handlers and the discovery ticker together.

* Go strings are Lean `String`s; the path functions work on their character
  lists.  The separator is `/` (Unix build of `path/filepath`).
* Calls that leave the program (`os.Executable`, `os.MkdirAll`, `store.Init`,
  `handlers.InitHandlers`, `strconv.ParseInt`) are answered by an `Env`, which
  every theorem quantifies over.
* `main` returns the final configuration, the list of effects it performed in
  program order, and how the process ended.
-/

namespace Gaia

/-! ## Go library: `path/filepath` (Unix) -/

/-- Elements of a slash-separated path, empty elements included:
`a//b/` has the elements `a`, empty, `b`, empty. -/
def splitSep : List Char → List (List Char)
  | [] => [[]]
  | c :: cs =>
    match splitSep cs with
    | [] => [[]]
    | w :: ws => if c = '/' then [] :: w :: ws else (c :: w) :: ws

/-- Elements written one after the other with a `/` in between. -/
def joinSep : List (List Char) → List Char
  | [] => []
  | [e] => e
  | e :: f :: es => e ++ '/' :: joinSep (f :: es)

/-- One round of the loop of `filepath.Clean`, on a whole path element.  `out`
is the output written so far, last element first.  An empty element and `.`
are dropped; `..` removes the last real element when there is one, is kept
when the path is not rooted and nothing can be removed, and is dropped at the
root; any other element is copied. -/
def cleanStep (rooted : Bool) (out : List (List Char)) (elem : List Char) :
    List (List Char) :=
  if elem = [] then out
  else if elem = ['.'] then out
  else if elem = ['.', '.'] then
    match out with
    | [] => if rooted then [] else [['.', '.']]
    | top :: below =>
      if top = ['.', '.'] then (if rooted then out else elem :: out) else below
  else elem :: out

/-- The function `filepath.Clean` on the characters of a path: the shortest
path naming the same file by purely lexical processing. -/
def cleanChars (path : List Char) : List Char :=
  let rooted : Bool := decide (path.head? = some '/')
  let out := ((splitSep path).foldl (cleanStep rooted) []).reverse
  if rooted then '/' :: joinSep out
  else if out = [] then ['.']
  else joinSep out

/-- Go `filepath.Clean`. -/
def Clean (path : String) : String := String.mk (cleanChars path.data)

/-- Go `strings.Join(elem, "/")`. -/
def stringsJoin : List String → String
  | [] => ""
  | [e] => e
  | e :: f :: es => e ++ "/" ++ stringsJoin (f :: es)

/-- Go `filepath.Join`: the elements from the first non-empty one on are
joined with the separator and the result is cleaned; empty when every
element is empty. -/
def Join : List String → String
  | [] => ""
  | e :: es => if e ≠ "" then Clean (stringsJoin (e :: es)) else Join es

/-- The path up to and including its last separator (`path[:i+1]` in
`filepath.Dir`); empty when it has no separator. -/
def dirPart (path : List Char) : List Char :=
  (path.reverse.dropWhile (fun c => c ≠ '/')).reverse

/-- Go `filepath.Dir`: all but the last element of the path, cleaned. -/
def Dir (path : String) : String := String.mk (cleanChars (dirPart path.data))

/-! ## The configuration `gaia.Config` (fields used by `main.go`) -/

/-- Objects constructed while `main` runs, named by their order of
construction. -/
abbrev Handle := Nat

/-- The `Bolt` part of `gaia.Config`. -/
structure BoltConfig where
  Mode : Nat
  deriving DecidableEq, Repr

/-- The global `gaia.Cfg`. -/
structure Config where
  ListenPort : String
  HomePath : String
  Workers : Int
  DataPath : String
  PipelinePath : String
  WorkspacePath : String
  Bolt : BoltConfig
  Logger : Option Handle
  deriving DecidableEq, Repr

/-- What the outside world answers to the calls of `main`. -/
structure Env where
  /-- Result of `strconv.ParseInt(s, 0, strconv.IntSize)`; `none` is an error. -/
  parseInt : String → Option Int
  /-- Result of `os.Executable()`: a path, or an error message. -/
  executable : Except String String
  /-- Result of `os.MkdirAll(path, perm)`: `none` is `nil`, `some e` an error. -/
  mkdirAll : String → Nat → Option String
  /-- Result of `store.Init()`. -/
  storeInit : Option String
  /-- Result of `handlers.InitHandlers(...)`. -/
  initHandlers : Option String

/-! ## Go library: package `flag`, for the three flags of `init` -/

/-- The flags registered by `init`. -/
inductive FlagName
  | port
  | homepath
  | workers
  deriving DecidableEq, Repr

/-- Lookup in `f.formal`: the flag registered under a name. -/
def lookupFlag (name : List Char) : Option FlagName :=
  if name = "port".data then some .port
  else if name = "homepath".data then some .homepath
  else if name = "workers".data then some .workers
  else none

/-- Scan for the first `=`: the text before it and, when there is one, the
text after it. -/
def splitEq : List Char → List Char × Option (List Char)
  | [] => ([], none)
  | c :: cs =>
    if c = '=' then ([], some cs)
    else ((c :: (splitEq cs).1), (splitEq cs).2)

/-- The loop `for i := 1; i < len(name); i++` of `parseOne`: a name is cut at
its first `=` that is not its first character. -/
def splitNameValue : List Char → List Char × Option (List Char)
  | [] => ([], none)
  | c :: cs => ((c :: (splitEq cs).1), (splitEq cs).2)

/-- What `parseOne` makes of the first remaining argument. -/
inductive ArgKind
  /-- not a flag: parsing stops and the argument stays -/
  | nonFlag
  /-- the argument `--`: parsing stops and the argument is consumed -/
  | terminator
  /-- bad flag syntax -/
  | bad
  /-- a flag name, and its value when written `-name=value` -/
  | flag (name : List Char) (value : Option (List Char))
  deriving DecidableEq, Repr

/-- The first half of `flag.FlagSet.parseOne`. -/
def classify (s : String) : ArgKind :=
  match s.data with
  | '-' :: c :: cs =>
    if c = '-' ∧ cs = [] then .terminator
    else
      let name := if c = '-' then cs else c :: cs
      match name with
      | [] => .bad
      | d :: ds =>
        if d = '-' ∨ d = '=' then .bad
        else .flag (splitNameValue (d :: ds)).1 (splitNameValue (d :: ds)).2
  | _ => .nonFlag

/-- The call `flag.Value.Set(value)` for the variable bound to the flag by
`init`: `-port` and `-homepath` are string flags and take any value,
`-workers` is an int flag. -/
def setFlag (env : Env) (cfg : Config) (f : FlagName) (value : String) : Option Config :=
  match f with
  | .port => some { cfg with ListenPort := value }
  | .homepath => some { cfg with HomePath := value }
  | .workers =>
    match env.parseInt value with
    | none => none
    | some n => some { cfg with Workers := n }

/-- How `flag.Parse` ends. -/
inductive ParseResult
  /-- the command line is accepted: the configuration, the flags that were
  set with their values in the order given, and the remaining arguments -/
  | ok (cfg : Config) (actual : List (FlagName × String)) (rest : List String)
  /-- `-h` or `-help`: usage is printed and the process exits -/
  | help
  /-- an error is reported and the process exits (`flag.ExitOnError`) -/
  | failed
  deriving DecidableEq, Repr

/-- The loop of `flag.FlagSet.Parse` over `parseOne`, for a flag set holding
the three flags of `init`. -/
def flagParse (env : Env) (cfg : Config) (actual : List (FlagName × String)) :
    List String → ParseResult
  | [] => .ok cfg actual []
  | s :: rest =>
    match classify s with
    | .nonFlag => .ok cfg actual (s :: rest)
    | .terminator => .ok cfg actual rest
    | .bad => .failed
    | .flag name value =>
      match lookupFlag name with
      | none => if name = "help".data ∨ name = "h".data then .help else .failed
      | some f =>
        match value with
        | some v =>
          match setFlag env cfg f (String.mk v) with
          | none => .failed
          | some cfg1 => flagParse env cfg1 (actual ++ [(f, String.mk v)]) rest
        | none =>
          match rest with
          | [] => .failed
          | v :: rest1 =>
            match setFlag env cfg f v with
            | none => .failed
            | some cfg1 => flagParse env cfg1 (actual ++ [(f, v)]) rest1

/-! ## `cmd/gaia/main.go` -/

/-- Constant `dataFolder`. -/
def dataFolder : String := "data"

/-- Constant `pipelinesFolder`. -/
def pipelinesFolder : String := "pipelines"

/-- Constant `workspaceFolder`. -/
def workspaceFolder : String := "workspace"

/-- The effects of `main`, in the order it performs them. -/
inductive Effect
  | flagParse (args : List String)
  | loggerNew (logger : Handle)
  | osExecutable
  | logError (msg : String) (err : String)
  | logDebug (msg : String)
  | mkdirAll (path : String) (perm : Nat)
  | irisNew (iris : Handle)
  | newStore (store : Handle)
  | storeInit (store : Handle)
  | newScheduler (store : Handle) (sched : Handle)
  /-- the call `scheduler.Init()`, with the value `gaia.Cfg.Workers` holds
  at the call -/
  | schedulerInit (sched : Handle) (workers : Int)
  | initHandlers (iris : Handle) (store : Handle) (sched : Handle)
  | initTicker (store : Handle) (sched : Handle)
  | listen (iris : Handle) (addr : String)
  | exit (code : Nat)
  deriving DecidableEq, Repr

/-- How the process ends. -/
inductive Outcome
  /-- package `flag` ended the process while parsing -/
  | flagExit
  /-- the call `os.Exit(code)` of `main` -/
  | exited (code : Nat)
  /-- the call `irisInstance.Run(iris.Addr(addr))` was reached -/
  | listening (addr : String)
  deriving DecidableEq, Repr

/-- One run of the program. -/
structure Run where
  cfg : Config
  trace : List Effect
  status : Outcome
  deriving DecidableEq, Repr

/-- The function `init`: a zero `gaia.Config`, the flag defaults, and
`Bolt.Mode = 0600`. -/
def init : Config :=
  { ListenPort := "8080"
    HomePath := ""
    Workers := 2
    DataPath := ""
    PipelinePath := ""
    WorkspacePath := ""
    Bolt := { Mode := 0o600 }
    Logger := none }

/-- The function `findExecuteablePath`: the Go pair `(string, error)`, the
error `none` for `nil`. -/
def findExecuteablePath (env : Env) : String × Option String :=
  match env.executable with
  | .error err => ("", some err)
  | .ok ex => (Dir ex, none)

/-- Lines 83-109 of `main`: iris, store, scheduler, handlers, ticker,
listen. -/
def startServices (env : Env) (cfg : Config) (t : List Effect) : Run :=
  let irisInstance : Handle := 1
  let store : Handle := 2
  let t := t ++ [.irisNew irisInstance, .newStore store, .storeInit store]
  match env.storeInit with
  | some err =>
    { cfg := cfg
      trace := t ++ [.logError "cannot initialize store" err, .exit 1]
      status := .exited 1 }
  | none =>
    let scheduler : Handle := 3
    let t := t ++ [.newScheduler store scheduler, .schedulerInit scheduler cfg.Workers,
      .initHandlers irisInstance store scheduler]
    match env.initHandlers with
    | some err =>
      { cfg := cfg
        trace := t ++ [.logError "cannot initialize handlers" err, .exit 1]
        status := .exited 1 }
    | none =>
      { cfg := cfg
        trace := t ++ [.initTicker store scheduler,
          .listen irisInstance (":" ++ cfg.ListenPort)]
        status := .listening (":" ++ cfg.ListenPort) }

/-- Lines 62-81 of `main`: the three folders below the home folder, then the
rest of `main`. -/
def createFolders (env : Env) (cfg : Config) (t : List Effect) : Run :=
  let cfg := { cfg with DataPath := Join [cfg.HomePath, dataFolder] }
  let t := t ++ [.mkdirAll cfg.DataPath 0o700]
  match env.mkdirAll cfg.DataPath 0o700 with
  | some err =>
    { cfg := cfg, trace := t ++ [.logError "cannot create folder" err, .exit 1]
      status := .exited 1 }
  | none =>
    let cfg := { cfg with PipelinePath := Join [cfg.HomePath, pipelinesFolder] }
    let t := t ++ [.mkdirAll cfg.PipelinePath 0o700]
    match env.mkdirAll cfg.PipelinePath 0o700 with
    | some err =>
      { cfg := cfg, trace := t ++ [.logError "cannot create folder" err, .exit 1]
        status := .exited 1 }
    | none =>
      let cfg := { cfg with WorkspacePath := Join [cfg.HomePath, workspaceFolder] }
      let t := t ++ [.mkdirAll cfg.WorkspacePath 0o700]
      match env.mkdirAll cfg.WorkspacePath 0o700 with
      | some err =>
        { cfg := cfg, trace := t ++ [.logError "cannot create data folder" err, .exit 1]
          status := .exited 1 }
      | none => startServices env cfg t

/-- The function `main`, run on the command-line arguments `args` (without
the program name). -/
def main (env : Env) (args : List String) : Run :=
  match flagParse env init [] args with
  | .help => { cfg := init, trace := [.flagParse args], status := .flagExit }
  | .failed => { cfg := init, trace := [.flagParse args], status := .flagExit }
  | .ok cfg _ _ =>
    let logger : Handle := 0
    let cfg := { cfg with Logger := some logger }
    let t := [.flagParse args, .loggerNew logger]
    if cfg.HomePath = "" then
      match findExecuteablePath env with
      | (_, some err) =>
        { cfg := cfg
          trace := t ++ [.osExecutable, .logError "cannot find executeable path" err, .exit 1]
          status := .exited 1 }
      | (execPath, none) =>
        let cfg := { cfg with HomePath := execPath }
        createFolders env cfg (t ++ [.osExecutable, .logDebug "executeable path found"])
    else
      createFolders env cfg t

/-! ## Reading the result of `flag.Parse` -/

/-- The value given with the last occurrence of flag `f` among the flags that
were set, `none` when the flag was not given. -/
def lastValue (f : FlagName) : List (FlagName × String) → Option String
  | [] => none
  | (g, v) :: rest =>
    match lastValue f rest with
    | some w => some w
    | none => if g = f then some v else none

/-! ## Concrete environments -/

/-- Value of a string of decimal digits. -/
def digitsValue (cs : List Char) : Option Nat :=
  cs.foldl
    (fun acc c =>
      match acc with
      | none => none
      | some n =>
        if 48 ≤ c.toNat ∧ c.toNat ≤ 57 then some (10 * n + (c.toNat - 48)) else none)
    (some 0)

/-- The function `strconv.ParseInt(s, 0, 64)` on decimal literals: an optional
sign, then `0` or digits that do not start with `0`, the value within the
range of a 64-bit `int`.  For any other spelling (a base prefix, a leading
zero, underscores) this environment answers with an error. -/
def decimalInt (s : String) : Option Int :=
  let neg : Bool := decide (s.data.head? = some '-')
  let ds := if s.data.head? = some '-' ∨ s.data.head? = some '+' then s.data.tail else s.data
  if ds = [] then none
  else if ds.head? = some '0' ∧ ds ≠ ['0'] then none
  else
    match digitsValue ds with
    | none => none
    | some n =>
      let v : Int := if neg then -(n : Int) else (n : Int)
      if -(2 : Int) ^ 63 ≤ v ∧ v < (2 : Int) ^ 63 then some v else none

/-- An environment in which every call succeeds; the executable is
`/usr/local/bin/gaia`. -/
def demoEnv : Env :=
  { parseInt := decimalInt
    executable := .ok "/usr/local/bin/gaia"
    mkdirAll := fun _ _ => none
    storeInit := none
    initHandlers := none }

/-- As `demoEnv`, but `store.Init` fails. -/
def brokenStoreEnv : Env :=
  { demoEnv with storeInit := some "timeout" }

/-- Each field of the configuration is read off the flags that were set. -/
def FieldsFromFlags (env : Env) (cfg : Config) (actual : List (FlagName × String)) : Prop :=
  cfg.ListenPort = (lastValue .port actual).getD "8080" ∧
  cfg.HomePath = (lastValue .homepath actual).getD "" ∧
  cfg.Workers = ((lastValue .workers actual).bind env.parseInt).getD 2 ∧
  cfg.DataPath = "" ∧ cfg.PipelinePath = "" ∧ cfg.WorkspacePath = "" ∧
  cfg.Bolt.Mode = 0o600 ∧ cfg.Logger = none

/-! ## Reading paths and traces -/

/-- A path element that `Clean` copies: not empty, no separator in it, and
neither `.` nor `..`. -/
def PlainElem (x : List Char) : Prop :=
  x ≠ [] ∧ '/' ∉ x ∧ x ≠ ['.'] ∧ x ≠ ['.', '.']

/-- What `Clean` writes before the last element of the path `p/x`. -/
def cleanLead (p : List Char) : List Char :=
  let rooted : Bool := decide ((p ++ ['/']).head? = some '/')
  let out := ((splitSep p).foldl (cleanStep rooted) []).reverse
  (if rooted then ['/'] else []) ++ (if out = [] then [] else joinSep out ++ ['/'])

/-- What `Join` writes before a folder name joined to `home`. -/
def joinLead (home : String) : List Char :=
  if home = "" then [] else cleanLead home.data

/-- The call recorded by an effect returned an error.  These are the six
calls whose error `main` checks: `os.Executable` (inside
`findExecuteablePath`), the three `os.MkdirAll`, `store.Init` and
`handlers.InitHandlers`. -/
def stepFailed (env : Env) : Effect → Bool
  | .osExecutable =>
    match env.executable with
    | .error _ => true
    | .ok _ => false
  | .mkdirAll path perm => (env.mkdirAll path perm).isSome
  | .storeInit _ => env.storeInit.isSome
  | .initHandlers _ _ _ => env.initHandlers.isSome
  | _ => false

/-- In a trace, every failed call is followed by one error log line and
`os.Exit(1)`, and by nothing else. -/
def FailFast (env : Env) : List Effect → Prop
  | [] => True
  | e :: rest =>
    (stepFailed env e = true → ∃ msg err, rest = [.logError msg err, .exit 1]) ∧
    FailFast env rest

/-- The effects over which the startup order is stated: parsing the flags,
creating a folder, `store.Init`, `NewScheduler`, `scheduler.Init`,
`InitHandlers`, `InitTicker`, listening.  The other effects (logger, log
lines, `os.Executable`, `iris.New`, `store.NewStore`, `os.Exit`) are left
out of it. -/
def isListedStep : Effect → Bool
  | .flagParse _ => true
  | .mkdirAll _ _ => true
  | .storeInit _ => true
  | .newScheduler _ _ => true
  | .schedulerInit _ _ => true
  | .initHandlers _ _ _ => true
  | .initTicker _ _ => true
  | .listen _ _ => true
  | _ => false

/-- The effect is a call of `scheduler.Init`. -/
def isSchedulerInit : Effect → Bool
  | .schedulerInit _ _ => true
  | _ => false

/-- The effect is a call of `store.NewStore`. -/
def isNewStore : Effect → Bool
  | .newStore _ => true
  | _ => false

/-- The effect is a call of `scheduler.NewScheduler`. -/
def isNewScheduler : Effect → Bool
  | .newScheduler _ _ => true
  | _ => false

/-! ## The scheduler, from the specification

Package `scheduler` is not among the source files; `main` only constructs it
and calls `Init`.  The run lifecycle and the job loop below follow the
specification (§3, §4.1-§4.3, §5, §8). -/

/-- Modelled from the spec: the status of a pipeline run (§4.1); package
`scheduler` is missing from the source. -/
inductive RunStatus
  | NotScheduled
  | Scheduled
  | Running
  | Success
  | Failed
  | Canceled
  deriving DecidableEq, Repr

/-- Modelled from the spec: the terminal values of the status, `Success`,
`Failed` and `Canceled` (§4.1); package `scheduler` is missing from the
source. -/
def isTerminal : RunStatus → Bool
  | .Success => true
  | .Failed => true
  | .Canceled => true
  | _ => false

/-- Modelled from the spec: the edges of the state machine of §4.1,
`NotScheduled → Scheduled → Running → {Success, Failed}`, and `Canceled`
from `Scheduled` or `Running`; package `scheduler` is missing from the
source. -/
def transitionAllowed : RunStatus → RunStatus → Bool
  | .NotScheduled, .Scheduled => true
  | .Scheduled, .Running => true
  | .Running, .Success => true
  | .Running, .Failed => true
  | .Scheduled, .Canceled => true
  | .Running, .Canceled => true
  | _, _ => false

/-- Modelled from the spec: what the scheduler, the run queue and a worker do
to a run (§4.1-§4.3, §5); package `scheduler` is missing from the source. -/
inductive RunEvent
  /-- the entry of the run waits in the Run Queue for a worker -/
  | enqueued
  /-- a worker pops the entry and transitions the run to `Running` (§4.3) -/
  | dequeued
  /-- every declared job completed without failure -/
  | jobsCompleted
  /-- a job failed -/
  | jobFailed
  /-- fatal plugin communication error: handshake timeout, protocol
  violation, crash, timeout -/
  | pluginError
  /-- the queue is closed on shutdown while the entry is not yet dispatched -/
  | queueClosed
  /-- the run is aborted by the user -/
  | abortedByUser
  /-- the system shuts down -/
  | shutdown
  deriving DecidableEq, Repr

/-- Modelled from the spec: the status of a run after an event.  An event
that does not apply in a status leaves it as it is; a run whose status is
terminal is immutable (§3).  A cancellation of a running run marks it
`Failed` when the user asked for it and `Canceled` on shutdown (§5).  Package
`scheduler` is missing from the source. -/
def applyEvent : RunStatus → RunEvent → RunStatus
  | .NotScheduled, .enqueued => .Scheduled
  | .Scheduled, .dequeued => .Running
  | .Scheduled, .queueClosed => .Canceled
  | .Scheduled, .abortedByUser => .Canceled
  | .Scheduled, .shutdown => .Canceled
  | .Running, .jobsCompleted => .Success
  | .Running, .jobFailed => .Failed
  | .Running, .pluginError => .Failed
  | .Running, .abortedByUser => .Failed
  | .Running, .shutdown => .Canceled
  | s, _ => s

/-- Modelled from the spec: the sequence of status values a run takes, from
status `s` on, under a sequence of events; an event that leaves the status
unchanged adds nothing.  Package `scheduler` is missing from the source. -/
def statusHistory (s : RunStatus) : List RunEvent → List RunStatus
  | [] => [s]
  | e :: es =>
    if applyEvent s e = s then statusHistory s es
    else s :: statusHistory (applyEvent s e) es

/-- Modelled from the spec: the result recorded for a job (§3); package
`scheduler` is missing from the source. -/
inductive JobResult
  | Success
  | Failed
  | Skipped
  deriving DecidableEq, Repr

/-- Modelled from the spec: a job descriptor returned by `GetJobs`: its name,
its dependency list, and whether it is marked independent (§3, §4.1);
package `scheduler` is missing from the source. -/
structure Job where
  name : String
  dependsOn : List String
  independent : Bool
  deriving DecidableEq, Repr

/-- Modelled from the spec: a dependency is satisfied when a job of that name
has been recorded `Success` earlier in the run; package `scheduler` is
missing from the source. -/
def depSatisfied (done : List (String × JobResult)) (dep : String) : Bool :=
  decide ((dep, JobResult.Success) ∈ done)

/-- Modelled from the spec: the result of one job (§4.1, §4.3).  A job with
an unmet dependency is skipped rather than executed; after the first failure
the remaining jobs are not executed unless marked independent; otherwise the
plugin executes the job and reports success or failure.  Package `scheduler`
is missing from the source. -/
def jobResult (execute : String → Bool) (halted : Bool) (done : List (String × JobResult))
    (j : Job) : JobResult :=
  if j.dependsOn.all (depSatisfied done) = false then .Skipped
  else if halted = true ∧ j.independent = false then .Skipped
  else if execute j.name = true then .Success
  else .Failed

/-- Modelled from the spec: the job loop of a worker (§4.3): the jobs are
taken in the order `GetJobs` returned them and one result is recorded per
job.  `done` holds the results recorded so far, `halted` tells whether a job
has failed.  Package `scheduler` is missing from the source. -/
def executeJobs (execute : String → Bool) :
    Bool → List (String × JobResult) → List Job → List (String × JobResult)
  | _, _, [] => []
  | halted, done, j :: js =>
    (j.name, jobResult execute halted done j) ::
      executeJobs execute
        (halted || decide (jobResult execute halted done j = .Failed))
        (done ++ [(j.name, jobResult execute halted done j)]) js

/-- Modelled from the spec: the terminal status of a run whose jobs were all
taken: `Success` only when every declared job completed without failure,
else `Failed` (§4.1); package `scheduler` is missing from the source. -/
def runOutcome (results : List (String × JobResult)) : RunStatus :=
  if results.all (fun r => decide (r.2 = JobResult.Success)) = true then .Success else .Failed

/-- The scenario of §8: jobs `build`, `test` depending on `build`, `deploy`
depending on `test`. -/
def scenarioJobs : List Job :=
  [ { name := "build", dependsOn := [], independent := false },
    { name := "test", dependsOn := ["build"], independent := false },
    { name := "deploy", dependsOn := ["test"], independent := false } ]

/-- A plugin whose job `build` fails and whose other jobs succeed. -/
def failingBuild (name : String) : Bool := decide (name ≠ "build")

/-! ## Theorems: package `flag` -/

/-- The last value of a flag after one more flag is set. -/
theorem lastValue_snoc (f g : FlagName) (v : String) (l : List (FlagName × String)) :
    lastValue f (l ++ [(g, v)]) = if g = f then some v else lastValue f l := by
  induction l with
  | nil => simp [lastValue]
  | cons a l ih =>
    obtain ⟨g1, v1⟩ := a
    simp only [List.cons_append, lastValue, List.append_eq, ih]
    by_cases hg : g = f
    · simp [hg]
    · simp [hg]

/-- A property of the configuration and the flags set that every successful
`Set` keeps is kept by `flag.Parse`. -/
theorem flagParse_preserves (env : Env) (Inv : Config → List (FlagName × String) → Prop)
    (hstep : ∀ cfg actual f v cfg1, Inv cfg actual → setFlag env cfg f v = some cfg1 →
      Inv cfg1 (actual ++ [(f, v)])) :
    ∀ (n : Nat) (args : List String), args.length ≤ n →
      ∀ cfg actual cfg1 actual1 rest,
      flagParse env cfg actual args = .ok cfg1 actual1 rest → Inv cfg actual →
      Inv cfg1 actual1 := by
  intro n
  induction n with
  | zero =>
    intro args hlen cfg actual cfg1 actual1 rest h hinv
    match args, hlen with
    | [], _ =>
      simp [flagParse] at h
      obtain ⟨h1, h2, -⟩ := h
      subst h1; subst h2; exact hinv
  | succ n ih =>
    intro args hlen cfg actual cfg1 actual1 rest h hinv
    match args, hlen with
    | [], _ =>
      simp [flagParse] at h
      obtain ⟨h1, h2, -⟩ := h
      subst h1; subst h2; exact hinv
    | s :: tl, hlen =>
      have hl : tl.length ≤ n := by simpa using hlen
      unfold flagParse at h
      split at h
      · simp at h; obtain ⟨h1, h2, -⟩ := h; subst h1; subst h2; exact hinv
      · simp at h; obtain ⟨h1, h2, -⟩ := h; subst h1; subst h2; exact hinv
      · simp at h
      · split at h
        · split at h <;> simp at h
        · split at h
          · split at h
            · simp at h
            · rename_i cfg2 hset
              exact ih tl hl _ _ _ _ _ h (hstep _ _ _ _ _ hinv hset)
          · split at h
            · simp at h
            · split at h
              · simp at h
              · rename_i v rest1 _ cfg2 hset
                have hl1 : rest1.length ≤ n := by
                  simp at hl; omega
                exact ih rest1 hl1 _ _ _ _ _ h (hstep _ _ _ _ _ hinv hset)

/-- A successful `Set` keeps every field read off the flags that were set. -/
theorem fieldsFromFlags_step (env : Env) (cfg : Config) (actual : List (FlagName × String))
    (f : FlagName) (v : String) (cfg1 : Config) (hinv : FieldsFromFlags env cfg actual)
    (hset : setFlag env cfg f v = some cfg1) :
    FieldsFromFlags env cfg1 (actual ++ [(f, v)]) := by
  obtain ⟨h1, h2, h3, h4, h5, h6, h7, h8⟩ := hinv
  cases f with
  | port =>
    simp only [setFlag, Option.some.injEq] at hset
    subst hset
    simp [FieldsFromFlags, lastValue_snoc, h2, h3, h4, h5, h6, h7, h8]
  | homepath =>
    simp only [setFlag, Option.some.injEq] at hset
    subst hset
    simp [FieldsFromFlags, lastValue_snoc, h1, h3, h4, h5, h6, h7, h8]
  | workers =>
    simp only [setFlag] at hset
    split at hset
    · simp at hset
    · rename_i n hn
      simp only [Option.some.injEq] at hset
      subst hset
      simp [FieldsFromFlags, lastValue_snoc, h1, h2, hn, h4, h5, h6, h7, h8]

/-- After an accepted `flag.Parse` on the configuration of `init`, every field
is read off the flags that were set. -/
theorem flagParse_fields (env : Env) (args : List String) (cfg : Config)
    (actual : List (FlagName × String)) (rest : List String)
    (h : flagParse env init [] args = .ok cfg actual rest) :
    FieldsFromFlags env cfg actual := by
  refine flagParse_preserves env (FieldsFromFlags env) (fieldsFromFlags_step env)
    args.length args (le_refl _) init [] cfg actual rest h ?_
  simp [FieldsFromFlags, init, lastValue]

/-- C2.  With no command-line arguments `flag.Parse` accepts and leaves
exactly the defaults of `init`: `ListenPort = "8080"`, `HomePath = ""`,
`Workers = 2`, `Bolt.Mode = 0600`, nothing else set.  On every accepted
command line each field is decided by its own flag alone: it holds the value
given with the last occurrence of that flag, and its default when the flag
is not given.  The three equations at the end are the step of `flag.Parse`
on `-port v`, `-homepath v` and `-workers v`: each sets its own field and
no other. -/
theorem flagParse_defaults_and_own_field (env : Env) :
    flagParse env init [] []
      = .ok { ListenPort := "8080", HomePath := "", Workers := 2, DataPath := "",
              PipelinePath := "", WorkspacePath := "", Bolt := { Mode := 0o600 },
              Logger := none } [] [] ∧
    (∀ (args : List String) (cfg : Config) (actual : List (FlagName × String))
        (rest : List String),
      flagParse env init [] args = .ok cfg actual rest →
        cfg.ListenPort = (lastValue .port actual).getD "8080" ∧
        cfg.HomePath = (lastValue .homepath actual).getD "" ∧
        cfg.Workers = ((lastValue .workers actual).bind env.parseInt).getD 2 ∧
        cfg.Bolt.Mode = 0o600 ∧
        cfg.DataPath = "" ∧ cfg.PipelinePath = "" ∧ cfg.WorkspacePath = "" ∧
        cfg.Logger = none) ∧
    (∀ (c : Config) (a : List (FlagName × String)) (v : String) (r : List String),
      flagParse env c a ("-port" :: v :: r)
        = flagParse env { c with ListenPort := v } (a ++ [(.port, v)]) r) ∧
    (∀ (c : Config) (a : List (FlagName × String)) (v : String) (r : List String),
      flagParse env c a ("-homepath" :: v :: r)
        = flagParse env { c with HomePath := v } (a ++ [(.homepath, v)]) r) ∧
    (∀ (c : Config) (a : List (FlagName × String)) (v : String) (r : List String) (n : Int),
      env.parseInt v = some n →
      flagParse env c a ("-workers" :: v :: r)
        = flagParse env { c with Workers := n } (a ++ [(.workers, v)]) r) := by
  refine ⟨rfl, ?_, ?_, ?_, ?_⟩
  · intro args cfg actual rest h
    obtain ⟨h1, h2, h3, h4, h5, h6, h7, h8⟩ := flagParse_fields env args cfg actual rest h
    exact ⟨h1, h2, h3, h7, h4, h5, h6, h8⟩
  · intro c a v r
    rfl
  · intro c a v r
    rfl
  · intro c a v r n hn
    show (match setFlag env c .workers v with
      | none => ParseResult.failed
      | some cfg1 => flagParse env cfg1 (a ++ [(FlagName.workers, v)]) r) = _
    simp only [setFlag, hn]

/-- Witness for C2: the command line `-port 9090 -workers 4`. -/
theorem flagParse_defaults_and_own_field_witness :
    flagParse demoEnv init [] ["-port", "9090", "-workers", "4"]
      = .ok { init with ListenPort := "9090", Workers := 4 }
          [(.port, "9090"), (.workers, "4")] [] ∧
    ({ init with ListenPort := "9090", Workers := 4 } : Config).HomePath
      = (lastValue .homepath [(.port, "9090"), (.workers, "4")]).getD "" :=
  ⟨by decide,
   ((flagParse_defaults_and_own_field demoEnv).2.1 ["-port", "9090", "-workers", "4"]
      { init with ListenPort := "9090", Workers := 4 }
      [(.port, "9090"), (.workers, "4")] [] (by decide)).2.1⟩

/-! ## Theorems: `path/filepath` -/

/-- A path has at least one element. -/
theorem splitSep_ne_nil (cs : List Char) : splitSep cs ≠ [] := by
  cases cs with
  | nil => simp [splitSep]
  | cons c cs =>
    unfold splitSep
    split
    · simp
    · split <;> simp

/-- The elements of `a/b` are those of `a` followed by those of `b`. -/
theorem splitSep_append_sep (a b : List Char) :
    splitSep (a ++ '/' :: b) = splitSep a ++ splitSep b := by
  induction a with
  | nil =>
    have hb := splitSep_ne_nil b
    simp only [List.nil_append]
    cases hsb : splitSep b with
    | nil => exact absurd hsb hb
    | cons w ws => simp [splitSep, hsb]
  | cons c a ih =>
    have ha := splitSep_ne_nil a
    simp only [List.cons_append]
    rw [splitSep, ih, splitSep]
    cases hsa : splitSep a with
    | nil => exact absurd hsa ha
    | cons w ws =>
      simp only [List.cons_append]
      split <;> simp

/-- A path without separator is its own single element. -/
theorem splitSep_plain (x : List Char) (hx : '/' ∉ x) : splitSep x = [x] := by
  induction x with
  | nil => simp [splitSep]
  | cons c x ih =>
    simp only [List.mem_cons, not_or] at hx
    rw [splitSep, ih hx.2]
    have hc : c ≠ '/' := fun h => hx.1 h.symm
    simp [hc]

/-- Joining with one more element at the end. -/
theorem joinSep_snoc (l : List (List Char)) (x : List Char) :
    joinSep (l ++ [x]) = (if l = [] then [] else joinSep l ++ ['/']) ++ x := by
  induction l with
  | nil => simp [joinSep]
  | cons e l ih =>
    cases l with
    | nil => simp [joinSep]
    | cons f l =>
      simp only [List.cons_append] at ih ⊢
      rw [joinSep, ih]
      simp [joinSep]

/-- The loop of `Clean` copies a plain element. -/
theorem cleanStep_plain (rooted : Bool) (out : List (List Char)) (x : List Char)
    (hx : PlainElem x) : cleanStep rooted out x = x :: out := by
  obtain ⟨h1, -, h3, h4⟩ := hx
  simp [cleanStep, h1, h3, h4]

/-- The function `Clean` keeps the last element of `p/x` when `x` is plain, and what
it writes before depends on `p` alone. -/
theorem cleanChars_append_plain (p x : List Char) (hx : PlainElem x) :
    cleanChars (p ++ '/' :: x) = cleanLead p ++ x := by
  have hhead : (p ++ '/' :: x).head? = (p ++ ['/']).head? := by
    cases p <;> simp
  unfold cleanChars cleanLead
  simp only [hhead, splitSep_append_sep, splitSep_plain x hx.2.1, List.foldl_append,
    List.foldl_cons, List.foldl_nil, cleanStep_plain _ _ x hx, List.reverse_cons, joinSep_snoc]
  split <;> simp

/-- The function `Clean` leaves a single plain element as it is. -/
theorem cleanChars_plain (x : List Char) (hx : PlainElem x) : cleanChars x = x := by
  have hhead : x.head? ≠ some '/' := by
    obtain ⟨h1, h2, -, -⟩ := hx
    cases x with
    | nil => simp
    | cons c x =>
      simp only [List.mem_cons, not_or] at h2
      simp only [List.head?_cons, ne_eq, Option.some.injEq]
      exact fun h => h2.1 h.symm
  unfold cleanChars
  simp [hhead, splitSep_plain x hx.2.1, cleanStep_plain _ _ x hx, joinSep]

/-- The call `Join(home, x)` for a plain `x` ends in `x`, after a text that
depends on `home` alone. -/
theorem Join_plain (home x : String) (hx : PlainElem x.data) :
    Join [home, x] = String.mk (joinLead home ++ x.data) := by
  have hxne : x ≠ "" := by
    intro h
    rw [h] at hx
    exact hx.1 rfl
  by_cases hh : home = ""
  · simp [Join, hh, hxne, joinLead, stringsJoin, Clean, cleanChars_plain _ hx]
  · simp [Join, hh, joinLead, stringsJoin, Clean, cleanChars_append_plain _ _ hx]

/-- The folder name `data` is a plain element. -/
theorem plain_data : PlainElem dataFolder.data := by
  unfold PlainElem dataFolder; decide

/-- The folder name `pipelines` is a plain element. -/
theorem plain_pipelines : PlainElem pipelinesFolder.data := by
  unfold PlainElem pipelinesFolder; decide

/-- The folder name `workspace` is a plain element. -/
theorem plain_workspace : PlainElem workspaceFolder.data := by
  unfold PlainElem workspaceFolder; decide

/-- Below any home path the three folders have three different paths. -/
theorem folders_distinct (home : String) :
    Join [home, dataFolder] ≠ Join [home, pipelinesFolder] ∧
    Join [home, dataFolder] ≠ Join [home, workspaceFolder] ∧
    Join [home, pipelinesFolder] ≠ Join [home, workspaceFolder] := by
  rw [Join_plain _ _ plain_data, Join_plain _ _ plain_pipelines, Join_plain _ _ plain_workspace]
  refine ⟨?_, ?_, ?_⟩
  · intro h
    have h1 := List.append_cancel_left (congrArg String.data h)
    revert h1; unfold dataFolder pipelinesFolder; decide
  · intro h
    have h1 := List.append_cancel_left (congrArg String.data h)
    revert h1; unfold dataFolder workspaceFolder; decide
  · intro h
    have h1 := List.append_cancel_left (congrArg String.data h)
    revert h1; unfold pipelinesFolder workspaceFolder; decide

/-! ## Theorems: `main` -/

/-- C1, as the code has it.  The worker count `scheduler.Init()` finds in
`gaia.Cfg.Workers` is the one `flag.Parse` left there: 2 when `-workers` is
not given, else the value of the last `-workers`, as it is; `main` does not
clamp it.  It is at least 1 whenever that `-workers` value is. -/
theorem schedulerInit_workers_from_flags (env : Env) (args : List String) (sched : Handle)
    (w : Int) (h : Effect.schedulerInit sched w ∈ (main env args).trace) :
    ∃ cfg actual rest, flagParse env init [] args = .ok cfg actual rest ∧
      w = cfg.Workers ∧
      w = ((lastValue .workers actual).bind env.parseInt).getD 2 ∧
      ((∀ v n, lastValue .workers actual = some v → env.parseInt v = some n → 1 ≤ n) →
        1 ≤ w) := by
  unfold main at h
  split at h
  · simp at h
  · simp at h
  · rename_i cfg actual rest hp
    have hw : w = cfg.Workers := by
      simp only [createFolders, startServices] at h
      repeat' split at h
      all_goals simp at h
      all_goals simp [h]
    obtain ⟨-, -, h3, -⟩ := flagParse_fields env args cfg actual rest hp
    refine ⟨cfg, actual, rest, hp, hw, hw.trans h3, ?_⟩
    intro hpos
    rw [hw, h3]
    cases hl : lastValue .workers actual with
    | none => simp
    | some v =>
      cases hn : env.parseInt v with
      | none => simp [hn]
      | some n => simpa [hn] using hpos v n hl hn

/-- Witness for the amended C1: `-workers 4`. -/
theorem schedulerInit_workers_from_flags_witness :
    Effect.schedulerInit 3 4 ∈ (main demoEnv ["-workers", "4"]).trace ∧
    ∃ cfg actual rest, flagParse demoEnv init [] ["-workers", "4"] = .ok cfg actual rest ∧
      (4 : Int) = cfg.Workers ∧
      (4 : Int) = ((lastValue .workers actual).bind demoEnv.parseInt).getD 2 ∧
      ((∀ v n, lastValue .workers actual = some v → demoEnv.parseInt v = some n → 1 ≤ n) →
        1 ≤ (4 : Int)) :=
  ⟨by decide, schedulerInit_workers_from_flags demoEnv ["-workers", "4"] 3 4 (by decide)⟩

/-- C1 as stated fails: with `-workers 0` the command line is accepted, the
server starts, and `scheduler.Init()` is called while `gaia.Cfg.Workers` is 0;
with `-workers -3` it is -3. -/
theorem schedulerInit_workers_not_positive :
    (main demoEnv ["-workers", "0"]).status = .listening ":8080" ∧
    Effect.schedulerInit 3 0 ∈ (main demoEnv ["-workers", "0"]).trace ∧
    (main demoEnv ["-workers", "0"]).cfg.Workers = 0 ∧
    Effect.schedulerInit 3 (-3) ∈ (main demoEnv ["-workers", "-3"]).trace ∧
    ¬ (∀ (env : Env) (args : List String) (sched : Handle) (w : Int),
        Effect.schedulerInit sched w ∈ (main env args).trace → 1 ≤ w) := by
  refine ⟨by decide, by decide, by decide, by decide, ?_⟩
  intro hall
  have h0 := hall demoEnv ["-workers", "0"] 3 0 (by decide)
  omega

/-- The function `findExecuteablePath` fails exactly when `os.Executable` does, with the
same error. -/
theorem findExecuteablePath_error_iff (env : Env) (err : String) :
    findExecuteablePath env = ("", some err) ↔ env.executable = .error err := by
  unfold findExecuteablePath
  cases env.executable with
  | error e => simp
  | ok ex => simp

/-- C3.  Home-folder resolution.  After `flag.Parse` the field `HomePath` is
the value of the last `-homepath` (empty when not given).  When it is not
empty it stays as it is and `os.Executable` is never called.  When it is
empty and `os.Executable` returns a path `ex`, `findExecuteablePath` returns
`(filepath.Dir(ex), nil)` and `HomePath` becomes `filepath.Dir(ex)`.
The function `findExecuteablePath` returns `("", err)` exactly when
`os.Executable` returns the error `err`; in that case `main` exits with
status 1 after the error log line, and no folder is created. -/
theorem home_resolution (env : Env) (args : List String) (cfg : Config)
    (actual : List (FlagName × String)) (rest : List String)
    (hp : flagParse env init [] args = .ok cfg actual rest) :
    cfg.HomePath = (lastValue .homepath actual).getD "" ∧
    (cfg.HomePath ≠ "" →
      (main env args).cfg.HomePath = cfg.HomePath ∧
      Effect.osExecutable ∉ (main env args).trace) ∧
    (cfg.HomePath = "" → ∀ ex, env.executable = .ok ex →
      findExecuteablePath env = (Dir ex, none) ∧
      (main env args).cfg.HomePath = Dir ex) ∧
    (∀ err, findExecuteablePath env = ("", some err) ↔ env.executable = .error err) ∧
    (cfg.HomePath = "" → ∀ err, env.executable = .error err →
      (main env args).status = .exited 1 ∧
      (main env args).trace = [.flagParse args, .loggerNew 0, .osExecutable,
        .logError "cannot find executeable path" err, .exit 1] ∧
      ∀ path perm, Effect.mkdirAll path perm ∉ (main env args).trace) := by
  refine ⟨(flagParse_fields env args cfg actual rest hp).2.1, ?_, ?_, 
    findExecuteablePath_error_iff env, ?_⟩
  · intro hne
    unfold main
    simp only [hp, hne, if_false]
    simp only [createFolders, startServices]
    repeat' split
    all_goals simp
  · intro he ex hex
    unfold main
    simp only [hp, he, if_true, findExecuteablePath, hex]
    simp only [createFolders, startServices]
    repeat' split
    all_goals simp
  · intro he err herr
    unfold main
    simp only [hp, he, if_true, findExecuteablePath, herr]
    simp

/-- Witness for C3: the command line `-homepath /srv/gaia`. -/
theorem home_resolution_witness :
    flagParse demoEnv init [] ["-homepath", "/srv/gaia"]
      = .ok { init with HomePath := "/srv/gaia" } [(.homepath, "/srv/gaia")] [] ∧
    (main demoEnv ["-homepath", "/srv/gaia"]).cfg.HomePath = "/srv/gaia" ∧
    Effect.osExecutable ∉ (main demoEnv ["-homepath", "/srv/gaia"]).trace :=
  ⟨by decide,
   (home_resolution demoEnv ["-homepath", "/srv/gaia"] { init with HomePath := "/srv/gaia" }
      [(.homepath, "/srv/gaia")] [] (by decide)).2.1 (by decide)⟩

/-- C4.  In every run that reaches `store.Init`, with `H` the resolved home
path: `DataPath = Join(H, "data")`, `PipelinePath = Join(H, "pipelines")`,
`WorkspacePath = Join(H, "workspace")`; the three paths are pairwise distinct
(for every `H` whatever); and the trace holds `MkdirAll` of the data folder,
of the pipelines folder and of the workspace folder, in this order and each
with mode 0700, before `store.Init`, which occurs once.  Every `MkdirAll` of
`main` has mode 0700. -/
theorem folders_below_home (env : Env) (args : List String) (st : Handle)
    (h : Effect.storeInit st ∈ (main env args).trace) :
    (main env args).cfg.DataPath = Join [(main env args).cfg.HomePath, "data"] ∧
    (main env args).cfg.PipelinePath = Join [(main env args).cfg.HomePath, "pipelines"] ∧
    (main env args).cfg.WorkspacePath = Join [(main env args).cfg.HomePath, "workspace"] ∧
    (main env args).cfg.DataPath ≠ (main env args).cfg.PipelinePath ∧
    (main env args).cfg.DataPath ≠ (main env args).cfg.WorkspacePath ∧
    (main env args).cfg.PipelinePath ≠ (main env args).cfg.WorkspacePath ∧
    (∃ pre post,
      (main env args).trace =
        pre ++ [.mkdirAll (main env args).cfg.DataPath 0o700,
                .mkdirAll (main env args).cfg.PipelinePath 0o700,
                .mkdirAll (main env args).cfg.WorkspacePath 0o700,
                .irisNew 1, .newStore 2, .storeInit 2] ++ post ∧
      (pre = [.flagParse args, .loggerNew 0] ∨
       pre = [.flagParse args, .loggerNew 0, .osExecutable,
              .logDebug "executeable path found"]) ∧
      ∀ s, Effect.storeInit s ∉ post) ∧
    (∀ path perm, Effect.mkdirAll path perm ∈ (main env args).trace → perm = 0o700) ∧
    (∀ home : String,
      Join [home, "data"] ≠ Join [home, "pipelines"] ∧
      Join [home, "data"] ≠ Join [home, "workspace"] ∧
      Join [home, "pipelines"] ≠ Join [home, "workspace"]) := by
  have hd := folders_distinct (main env args).cfg.HomePath
  have key :
      (main env args).cfg.DataPath = Join [(main env args).cfg.HomePath, dataFolder] ∧
      (main env args).cfg.PipelinePath = Join [(main env args).cfg.HomePath, pipelinesFolder] ∧
      (main env args).cfg.WorkspacePath = Join [(main env args).cfg.HomePath, workspaceFolder] ∧
      (∃ pre post,
        (main env args).trace =
          pre ++ [.mkdirAll (main env args).cfg.DataPath 0o700,
                  .mkdirAll (main env args).cfg.PipelinePath 0o700,
                  .mkdirAll (main env args).cfg.WorkspacePath 0o700,
                  .irisNew 1, .newStore 2, .storeInit 2] ++ post ∧
        (pre = [.flagParse args, .loggerNew 0] ∨
         pre = [.flagParse args, .loggerNew 0, .osExecutable,
                .logDebug "executeable path found"]) ∧
        ∀ s, Effect.storeInit s ∉ post) ∧
      (∀ path perm, Effect.mkdirAll path perm ∈ (main env args).trace → perm = 0o700) := by
    revert h
    unfold main
    simp only [createFolders, startServices, findExecuteablePath]
    repeat' split
    all_goals simp
    all_goals
      intro _
      refine ⟨?_, ?_⟩
      · first
          | exact ⟨[_, _], _, rfl, Or.inl rfl, by simp⟩
          | exact ⟨[_, _, _, _], _, rfl, Or.inr rfl, by simp⟩
      · rintro path perm (⟨-, h⟩ | ⟨-, h⟩ | ⟨-, h⟩) <;> exact h
  obtain ⟨k1, k2, k3, k4, k5⟩ := key
  refine ⟨k1, k2, k3, ?_, ?_, ?_, k4, k5, fun home => folders_distinct home⟩
  · rw [k1, k2]; exact hd.1
  · rw [k1, k3]; exact hd.2.1
  · rw [k2, k3]; exact hd.2.2

/-- Witness for C4: the run with no arguments, the executable being
`/usr/local/bin/gaia`. -/
theorem folders_below_home_witness :
    Effect.storeInit 2 ∈ (main demoEnv []).trace ∧
    (main demoEnv []).cfg.DataPath = "/usr/local/bin/data" ∧
    (main demoEnv []).cfg.DataPath = Join [(main demoEnv []).cfg.HomePath, "data"] :=
  ⟨by decide, by decide, (folders_below_home demoEnv [] 2 (by decide)).1⟩

/-- In a fail-fast trace, what follows a failed call is the error log line
and `os.Exit(1)`. -/
theorem failFast_split (env : Env) (t : List Effect) (hff : FailFast env t) :
    ∀ (pre post : List Effect) (e : Effect), t = pre ++ e :: post → stepFailed env e = true →
      ∃ msg err, post = [.logError msg err, .exit 1] := by
  induction t with
  | nil =>
    intro pre post e h
    simp at h
  | cons a t ih =>
    intro pre post e h hf
    cases pre with
    | nil =>
      simp only [List.nil_append, List.cons.injEq] at h
      obtain ⟨ha, ht⟩ := h
      subst ha; subst ht
      exact hff.1 hf
    | cons b pre =>
      simp only [List.cons_append, List.cons.injEq] at h
      exact ih hff.2 pre post e h.2 hf

/-- The trace of `main` is fail-fast; a run with a failed call exits with
status 1 before the ticker and the listener; and when `store.Init` fails no
scheduler is constructed or initialised. -/
theorem main_trace_failFast (env : Env) (args : List String) :
    FailFast env (main env args).trace ∧
    ((∀ e ∈ (main env args).trace, stepFailed env e = false) ∨
      ((main env args).status = .exited 1 ∧
       (∀ st sc, Effect.initTicker st sc ∉ (main env args).trace) ∧
       (∀ i a, Effect.listen i a ∉ (main env args).trace))) ∧
    (env.storeInit.isSome = true →
      (∀ st sc, Effect.newScheduler st sc ∉ (main env args).trace) ∧
      (∀ sc w, Effect.schedulerInit sc w ∉ (main env args).trace)) := by
  unfold main
  simp only [createFolders, startServices, findExecuteablePath]
  cases hexe : env.executable
  all_goals simp only []
  all_goals repeat' split
  all_goals simp_all [FailFast, stepFailed]

/-- The checked calls of `main` and their arguments: each `MkdirAll` has mode
0700 and one of the three folders below the home path, `store.Init` is called
on the store, `InitHandlers` on iris, the store and the scheduler. -/
theorem main_checked_calls (env : Env) (args : List String) :
    (∀ path perm, Effect.mkdirAll path perm ∈ (main env args).trace →
      perm = 0o700 ∧
      (path = Join [(main env args).cfg.HomePath, dataFolder] ∨
       path = Join [(main env args).cfg.HomePath, pipelinesFolder] ∨
       path = Join [(main env args).cfg.HomePath, workspaceFolder])) ∧
    (∀ st, Effect.storeInit st ∈ (main env args).trace → st = 2) ∧
    (∀ i st sc, Effect.initHandlers i st sc ∈ (main env args).trace →
      i = 1 ∧ st = 2 ∧ sc = 3) := by
  unfold main
  simp only [createFolders, startServices, findExecuteablePath]
  repeat' split
  all_goals simp
  all_goals
    intro path perm h
    tauto

/-- C7.  Fail-fast startup.  Let `e` be a call in the trace of `main` that
returned an error.  Then `e` is one of the six checked steps (`os.Executable`,
`MkdirAll` of the data, the pipelines or the workspace folder, `store.Init`,
`InitHandlers`), what follows `e` in the trace is
exactly one error log line and `os.Exit(1)`, so that no later startup step is
performed; the process exits with status 1; the ticker is never started and
the server never listens; and when `e` is `store.Init`, no scheduler is
constructed or initialised. -/
theorem main_fail_fast (env : Env) (args : List String) (pre post : List Effect) (e : Effect)
    (htrace : (main env args).trace = pre ++ e :: post) (hfail : stepFailed env e = true) :
    (e = .osExecutable ∨
      e = .mkdirAll (Join [(main env args).cfg.HomePath, "data"]) 0o700 ∨
      e = .mkdirAll (Join [(main env args).cfg.HomePath, "pipelines"]) 0o700 ∨
      e = .mkdirAll (Join [(main env args).cfg.HomePath, "workspace"]) 0o700 ∨
      e = .storeInit 2 ∨ e = .initHandlers 1 2 3) ∧
    (∃ msg err, post = [.logError msg err, .exit 1]) ∧
    (main env args).status = .exited 1 ∧
    (∀ st sc, Effect.initTicker st sc ∉ (main env args).trace) ∧
    (∀ i a, Effect.listen i a ∉ (main env args).trace) ∧
    (∀ st, e = .storeInit st →
      (∀ s sc, Effect.newScheduler s sc ∉ (main env args).trace) ∧
      (∀ sc w, Effect.schedulerInit sc w ∉ (main env args).trace)) := by
  obtain ⟨hff, hor, hst⟩ := main_trace_failFast env args
  obtain ⟨hmk, hsi, hih⟩ := main_checked_calls env args
  have hmem : e ∈ (main env args).trace := by rw [htrace]; simp
  have hex : (main env args).status = .exited 1 ∧
       (∀ st sc, Effect.initTicker st sc ∉ (main env args).trace) ∧
       (∀ i a, Effect.listen i a ∉ (main env args).trace) := by
    rcases hor with h | h
    · have := h e hmem
      rw [hfail] at this
      exact absurd this (by simp)
    · exact h
  refine ⟨?_, failFast_split env _ hff pre post e htrace hfail, hex.1, hex.2.1, hex.2.2, ?_⟩
  · cases e with
    | osExecutable => exact Or.inl rfl
    | mkdirAll path perm =>
      obtain ⟨hperm, hpath⟩ := hmk path perm hmem
      subst hperm
      rcases hpath with h | h | h
      · exact Or.inr (Or.inl (by rw [h]; rfl))
      · exact Or.inr (Or.inr (Or.inl (by rw [h]; rfl)))
      · exact Or.inr (Or.inr (Or.inr (Or.inl (by rw [h]; rfl))))
    | storeInit st =>
      have h := hsi st hmem
      subst h
      exact Or.inr (Or.inr (Or.inr (Or.inr (Or.inl rfl))))
    | initHandlers i st sc =>
      obtain ⟨h1, h2, h3⟩ := hih i st sc hmem
      subst h1; subst h2; subst h3
      exact Or.inr (Or.inr (Or.inr (Or.inr (Or.inr rfl))))
    | _ => simp [stepFailed] at hfail
  · intro st hst1
    subst hst1
    exact hst (by simpa [stepFailed] using hfail)

/-- Witness for C7: `store.Init` fails. -/
theorem main_fail_fast_witness :
    stepFailed brokenStoreEnv (.storeInit 2) = true ∧
    (main brokenStoreEnv []).trace =
      [.flagParse [], .loggerNew 0, .osExecutable, .logDebug "executeable path found",
       .mkdirAll "/usr/local/bin/data" 0o700, .mkdirAll "/usr/local/bin/pipelines" 0o700,
       .mkdirAll "/usr/local/bin/workspace" 0o700, .irisNew 1, .newStore 2]
      ++ .storeInit 2 :: [.logError "cannot initialize store" "timeout", .exit 1] ∧
    (main brokenStoreEnv []).status = .exited 1 :=
  ⟨by decide, by decide,
   (main_fail_fast brokenStoreEnv []
      [.flagParse [], .loggerNew 0, .osExecutable, .logDebug "executeable path found",
       .mkdirAll "/usr/local/bin/data" 0o700, .mkdirAll "/usr/local/bin/pipelines" 0o700,
       .mkdirAll "/usr/local/bin/workspace" 0o700, .irisNew 1, .newStore 2]
      [.logError "cannot initialize store" "timeout", .exit 1]
      (.storeInit 2) (by decide) (by decide)).2.2.1⟩

/-- C8.  Startup order.  On an accepted command line, when none of the
checked calls returns an error, the listed effects of `main` are, in this
order and each once: `flag.Parse`, `MkdirAll` of the data folder, of the
pipelines folder, of the workspace folder, `store.Init`, `NewScheduler`,
`scheduler.Init` (with the worker count `flag.Parse` produced),
`InitHandlers`, `InitTicker`, and listening on `":" ++ ListenPort`.  The
second equation gives the whole trace, with the calls that are not listed
(logger, `os.Executable` and its log line when `-homepath` is empty,
`iris.New`, `store.NewStore`) at their places. -/
theorem main_startup_order (env : Env) (args : List String) (cfg : Config)
    (actual : List (FlagName × String)) (rest : List String)
    (hp : flagParse env init [] args = .ok cfg actual rest)
    (hok : ∀ e ∈ (main env args).trace, stepFailed env e = false) :
    (main env args).trace.filter isListedStep =
      [.flagParse args,
       .mkdirAll (Join [(main env args).cfg.HomePath, "data"]) 0o700,
       .mkdirAll (Join [(main env args).cfg.HomePath, "pipelines"]) 0o700,
       .mkdirAll (Join [(main env args).cfg.HomePath, "workspace"]) 0o700,
       .storeInit 2, .newScheduler 2 3, .schedulerInit 3 cfg.Workers,
       .initHandlers 1 2 3, .initTicker 2 3, .listen 1 (":" ++ cfg.ListenPort)] ∧
    (main env args).trace =
      [.flagParse args, .loggerNew 0] ++
      (if cfg.HomePath = "" then [.osExecutable, .logDebug "executeable path found"] else []) ++
      [.mkdirAll (Join [(main env args).cfg.HomePath, "data"]) 0o700,
       .mkdirAll (Join [(main env args).cfg.HomePath, "pipelines"]) 0o700,
       .mkdirAll (Join [(main env args).cfg.HomePath, "workspace"]) 0o700,
       .irisNew 1, .newStore 2,
       .storeInit 2, .newScheduler 2 3, .schedulerInit 3 cfg.Workers,
       .initHandlers 1 2 3, .initTicker 2 3, .listen 1 (":" ++ cfg.ListenPort)] ∧
    ((main env args).trace.filter isSchedulerInit).length = 1 ∧
    (main env args).status = .listening (":" ++ cfg.ListenPort) ∧
    (main env args).cfg.Workers = cfg.Workers ∧
    (main env args).cfg.ListenPort = cfg.ListenPort := by
  revert hok
  unfold main
  simp only [hp, createFolders, startServices, findExecuteablePath]
  cases hexe : env.executable
  all_goals simp only []
  all_goals repeat' split
  all_goals simp_all [stepFailed, isListedStep, isSchedulerInit, dataFolder, pipelinesFolder,
    workspaceFolder]

/-- Witness for C8: the run with no arguments in which every call succeeds. -/
theorem main_startup_order_witness :
    flagParse demoEnv init [] [] = .ok init [] [] ∧
    (main demoEnv []).trace.filter isListedStep =
      [.flagParse [],
       .mkdirAll (Join [(main demoEnv []).cfg.HomePath, "data"]) 0o700,
       .mkdirAll (Join [(main demoEnv []).cfg.HomePath, "pipelines"]) 0o700,
       .mkdirAll (Join [(main demoEnv []).cfg.HomePath, "workspace"]) 0o700,
       .storeInit 2, .newScheduler 2 3, .schedulerInit 3 init.Workers,
       .initHandlers 1 2 3, .initTicker 2 3, .listen 1 (":" ++ init.ListenPort)] :=
  ⟨by decide, (main_startup_order demoEnv [] init [] [] (by decide) (by decide)).1⟩

/-- C9.  Single store and scheduler.  In every run of `main` at most one
store and at most one scheduler are constructed; the scheduler is constructed
over that store; and the store and scheduler passed to `InitHandlers` and to
`InitTicker` are that store and that scheduler, the same in both calls. -/
theorem main_single_store_and_scheduler (env : Env) (args : List String) :
    ((main env args).trace.filter isNewStore).length ≤ 1 ∧
    ((main env args).trace.filter isNewScheduler).length ≤ 1 ∧
    (∀ st sc, Effect.newScheduler st sc ∈ (main env args).trace →
      Effect.newStore st ∈ (main env args).trace) ∧
    (∀ i st sc, Effect.initHandlers i st sc ∈ (main env args).trace →
      Effect.newStore st ∈ (main env args).trace ∧
      Effect.newScheduler st sc ∈ (main env args).trace) ∧
    (∀ st sc, Effect.initTicker st sc ∈ (main env args).trace →
      Effect.newStore st ∈ (main env args).trace ∧
      Effect.newScheduler st sc ∈ (main env args).trace ∧
      ∃ i, Effect.initHandlers i st sc ∈ (main env args).trace) := by
  unfold main
  simp only [createFolders, startServices, findExecuteablePath]
  repeat' split
  all_goals simp [isNewStore, isNewScheduler]

/-- Witness for C9: the run with no arguments in which every call succeeds. -/
theorem main_single_store_and_scheduler_witness :
    Effect.initTicker 2 3 ∈ (main demoEnv []).trace ∧
    Effect.newStore 2 ∈ (main demoEnv []).trace ∧
    Effect.newScheduler 2 3 ∈ (main demoEnv []).trace ∧
    ∃ i, Effect.initHandlers i 2 3 ∈ (main demoEnv []).trace :=
  ⟨by decide, (main_single_store_and_scheduler demoEnv []).2.2.2.2 2 3 (by decide)⟩

/-! ## Theorems: the scheduler, from the specification -/

/-- A status history starts with the status it starts from. -/
theorem statusHistory_head (s : RunStatus) (events : List RunEvent) :
    (statusHistory s events).head? = some s := by
  induction events generalizing s with
  | nil => simp [statusHistory]
  | cons e es ih =>
    unfold statusHistory
    split
    · exact ih s
    · simp

/-- An event that changes the status follows an edge of the state machine. -/
theorem applyEvent_allowed (s : RunStatus) (e : RunEvent) (h : applyEvent s e ≠ s) :
    transitionAllowed s (applyEvent s e) = true := by
  cases s <;> cases e <;> simp [applyEvent, transitionAllowed] at h ⊢

/-- Consecutive statuses of a history are joined by edges of the state machine. -/
theorem statusHistory_chain (s : RunStatus) (events : List RunEvent) :
    List.Chain' (fun a b => transitionAllowed a b = true) (statusHistory s events) := by
  induction events generalizing s with
  | nil => simp [statusHistory]
  | cons e es ih =>
    unfold statusHistory
    split
    · exact ih s
    · rename_i hne
      rw [List.chain'_cons']
      refine ⟨?_, ih _⟩
      intro y hy
      rw [statusHistory_head] at hy
      simp only [Option.mem_def, Option.some.injEq] at hy
      subst hy
      exact applyEvent_allowed s e hne

/-- No event changes a terminal status. -/
theorem applyEvent_terminal (s : RunStatus) (e : RunEvent) (h : isTerminal s = true) :
    applyEvent s e = s := by
  cases s <;> cases e <;> simp [applyEvent, isTerminal] at h ⊢

/-- From a terminal status on, the history is that status alone. -/
theorem statusHistory_terminal (s : RunStatus) (events : List RunEvent)
    (h : isTerminal s = true) : statusHistory s events = [s] := by
  induction events with
  | nil => simp [statusHistory]
  | cons e es ih =>
    unfold statusHistory
    simp [applyEvent_terminal s e h, ih]

/-- A terminal status in a history is its last entry. -/
theorem statusHistory_terminal_last (s : RunStatus) (events : List RunEvent) :
    ∀ pre t post, statusHistory s events = pre ++ t :: post → isTerminal t = true →
      post = [] := by
  induction events generalizing s with
  | nil =>
    intro pre t post h _
    cases pre with
    | nil => simp [statusHistory] at h; exact h.2
    | cons a pre => simp [statusHistory] at h
  | cons e es ih =>
    intro pre t post h ht
    unfold statusHistory at h
    split at h
    · exact ih s pre t post h ht
    · rename_i hne
      cases pre with
      | nil =>
        simp only [List.nil_append, List.cons.injEq] at h
        obtain ⟨h1, -⟩ := h
        subst h1
        exact absurd (applyEvent_terminal s e ht) hne
      | cons a pre =>
        simp only [List.cons_append, List.cons.injEq] at h
        exact ih _ pre t post h.2 ht

/-- C5 (on the run lifecycle modelled from the specification).  Whatever
events reach a run, the sequence of status values it takes starts at
`NotScheduled` and is a path of the state machine
`NotScheduled → Scheduled → Running → {Success, Failed}` with `Canceled`
reachable only from `Scheduled` or `Running`; a terminal status is the last
of the sequence, no event changes it, and no edge leaves it. -/
theorem run_status_path (events : List RunEvent) :
    (statusHistory .NotScheduled events).head? = some .NotScheduled ∧
    List.Chain' (fun a b => transitionAllowed a b = true)
      (statusHistory .NotScheduled events) ∧
    (∀ pre t post, statusHistory .NotScheduled events = pre ++ t :: post →
      isTerminal t = true → post = []) ∧
    (∀ s e, isTerminal s = true → applyEvent s e = s) ∧
    (∀ s t, isTerminal s = true → transitionAllowed s t = false) ∧
    (∀ s, transitionAllowed s .Canceled = true → s = .Scheduled ∨ s = .Running) ∧
    (∀ s t, transitionAllowed s t = true ↔
      (s = .NotScheduled ∧ t = .Scheduled) ∨ (s = .Scheduled ∧ t = .Running) ∨
      (s = .Running ∧ (t = .Success ∨ t = .Failed)) ∨
      ((s = .Scheduled ∨ s = .Running) ∧ t = .Canceled)) := by
  refine ⟨statusHistory_head _ _, statusHistory_chain _ _, statusHistory_terminal_last _ _,
    applyEvent_terminal, ?_, ?_, ?_⟩
  · intro s t h
    cases s <;> cases t <;> simp [isTerminal, transitionAllowed] at h ⊢
  · intro s h
    cases s <;> simp [transitionAllowed] at h ⊢
  · intro s t
    cases s <;> cases t <;> simp [transitionAllowed]

/-- Witness for C5: a run that is queued, dispatched, fails on a job, and is
then reached by a shutdown. -/
theorem run_status_path_witness :
    statusHistory .NotScheduled [.enqueued, .dequeued, .jobFailed, .shutdown]
      = [.NotScheduled, .Scheduled, .Running, .Failed] ∧
    List.Chain' (fun a b => transitionAllowed a b = true)
      (statusHistory .NotScheduled [.enqueued, .dequeued, .jobFailed, .shutdown]) :=
  ⟨by decide, (run_status_path [.enqueued, .dequeued, .jobFailed, .shutdown]).2.1⟩

/-- One result is recorded per job. -/
theorem executeJobs_length (execute : String → Bool) (jobs : List Job) :
    ∀ halted done, (executeJobs execute halted done jobs).length = jobs.length := by
  induction jobs with
  | nil => intro halted done; simp [executeJobs]
  | cons j js ih => intro halted done; simp [executeJobs, ih]

/-- A job with a dependency that has no recorded `Success` is skipped. -/
theorem jobResult_unmet (execute : String → Bool) (halted : Bool)
    (done : List (String × JobResult)) (j : Job)
    (h : ∃ d ∈ j.dependsOn, (d, JobResult.Success) ∉ done) :
    jobResult execute halted done j = .Skipped := by
  obtain ⟨d, hd, hnot⟩ := h
  have hall : j.dependsOn.all (depSatisfied done) = false := by
    rw [Bool.eq_false_iff]
    intro hall
    rw [List.all_eq_true] at hall
    have := hall d hd
    simp [depSatisfied, hnot] at this
  simp [jobResult, hall]

/-- In the job loop, a job whose turn comes with a dependency that has no
recorded `Success` is recorded `Skipped`. -/
theorem executeJobs_unmet (execute : String → Bool) (jobs : List Job) :
    ∀ (halted : Bool) (done : List (String × JobResult)) (i : Nat) (j : Job),
      jobs[i]? = some j →
      (∃ d ∈ j.dependsOn,
        (d, JobResult.Success) ∉ done ++ (executeJobs execute halted done jobs).take i) →
      (executeJobs execute halted done jobs)[i]? = some (j.name, .Skipped) := by
  induction jobs with
  | nil => intro halted done i j hj; simp at hj
  | cons j0 js ih =>
    intro halted done i j hj hdep
    cases i with
    | zero =>
      simp only [List.getElem?_cons_zero, Option.some.injEq] at hj
      subst hj
      simp only [List.take_zero, List.append_nil] at hdep
      simp [executeJobs, jobResult_unmet execute halted done j0 hdep]
    | succ i =>
      simp only [List.getElem?_cons_succ] at hj
      simp only [executeJobs, List.take_succ_cons, List.getElem?_cons_succ]
      apply ih _ _ i j hj
      simpa [executeJobs] using hdep

/-- C6 (on the job loop modelled from the specification).  For every plugin
and every ordered job list, one result is recorded per job, and a job that
has a dependency without a recorded `Success` when its turn comes is recorded
`Skipped`, not `Success`.  For the jobs `build`, `test` depending on `build`,
`deploy` depending on `test`: when `build` fails, the results are `Failed`,
`Skipped`, `Skipped` and the run ends `Failed`. -/
theorem unmet_dependency_skipped (execute : String → Bool) :
    (∀ (jobs : List Job) (i : Nat) (j : Job),
      (executeJobs execute false [] jobs).length = jobs.length ∧
      (jobs[i]? = some j →
       (∃ d ∈ j.dependsOn,
          (d, JobResult.Success) ∉ (executeJobs execute false [] jobs).take i) →
       (executeJobs execute false [] jobs)[i]? = some (j.name, .Skipped) ∧
       (executeJobs execute false [] jobs)[i]? ≠ some (j.name, .Success))) ∧
    (execute "build" = false →
      executeJobs execute false [] scenarioJobs
        = [("build", .Failed), ("test", .Skipped), ("deploy", .Skipped)] ∧
      runOutcome (executeJobs execute false [] scenarioJobs) = .Failed) := by
  refine ⟨?_, ?_⟩
  · intro jobs i j
    refine ⟨executeJobs_length execute jobs false [], ?_⟩
    intro hj hdep
    have h1 := executeJobs_unmet execute jobs false [] i j hj (by simpa using hdep)
    refine ⟨h1, ?_⟩
    rw [h1]; simp
  · intro hb
    have hres : executeJobs execute false [] scenarioJobs
        = [("build", .Failed), ("test", .Skipped), ("deploy", .Skipped)] := by
      simp [executeJobs, scenarioJobs, jobResult, depSatisfied, hb]
    rw [hres]
    exact ⟨rfl, by decide⟩

/-- Witness for C6: the job `test` of the scenario when `build` fails. -/
theorem unmet_dependency_skipped_witness :
    failingBuild "build" = false ∧
    (executeJobs failingBuild false [] scenarioJobs)[1]? = some ("test", .Skipped) ∧
    executeJobs failingBuild false [] scenarioJobs
        = [("build", .Failed), ("test", .Skipped), ("deploy", .Skipped)] ∧
    runOutcome (executeJobs failingBuild false [] scenarioJobs) = .Failed :=
  ⟨by decide,
   (((unmet_dependency_skipped failingBuild).1 scenarioJobs 1
      { name := "test", dependsOn := ["build"], independent := false }).2 (by decide)
      ⟨"build", by decide, by decide⟩).1,
   (unmet_dependency_skipped failingBuild).2 (by decide)⟩

end Gaia
